import Mathlib

/-!
Verification of the IMAGE-SUMMARY app (`app.py`): a shallow embedding of the
session state machine, the history persistence adapter, and the
send/rate/pin/clear/upload handlers, with theorems checking the spec's claims.

Modelling conventions:
* Python dict entries `{id, timestamp, question, answer, rating, pinned}`
  created by the send handler become the `Entry` structure.
* The history file is modelled at the granularity of its parsed JSON document
  (`FileState`): `missing` (path does not exist), `corrupt` (bytes that fail
  `json.load`), or `content doc` (a well-formed JSON document `doc`).
  Python's `json.dump`/`json.load` pair round-trips JSON values exactly
  (`ensure_ascii=False`), so serialization is modelled as the identity on the
  parsed document.
* External collaborators (clock, Gemini model, image decoder) are inputs to
  each action, packaged in `Env`: `nowId` is `datetime.now().timestamp()`
  formatted as a string, `nowIso` is `now_iso()`, `genResult` the outcome of
  `model.generate_content`, `modelConfigured` whether `model` is not `None`.
-/

/-- One conversation exchange: the dict built at `app.py` lines 270-277. -/
structure Entry where
  id : String
  timestamp : String
  question : String
  answer : String
  rating : Int
  pinned : Bool
deriving Repr, DecidableEq

/-- `st.session_state.achievements` (line 136). -/
structure Achievements where
  questions_today : Nat
  first_upload_done : Bool
deriving Repr, DecidableEq

/-- The session-scoped state initialised at lines 129-136. The decoded image
is opaque to the session logic (only compared against `None`), so it is
modelled as an abstract handle `Option Nat`. -/
structure SessionState where
  history : List Entry
  current_image : Option Nat
  persist_opt_in : Bool
  achievements : Achievements
deriving Repr, DecidableEq

/-- The initial session state (lines 129-136). -/
def initState : SessionState :=
  { history := []
    current_image := none
    persist_opt_in := false
    achievements := { questions_today := 0, first_upload_done := false } }

/-- Parsed JSON values, the currency of `json.dump` / `json.load`. -/
inductive JVal where
  | jnull
  | jbool (b : Bool)
  | jnum (n : Int)
  | jstr (s : String)
  | jarr (xs : List JVal)
  | jobj (fields : List (String × JVal))
deriving Repr

/-- The state of the `history.json` file on disk. -/
inductive FileState where
  | missing
  | corrupt
  | content (doc : JVal)
deriving Repr

/-- The JSON dict the send handler appends to `st.session_state.history`. -/
def entryToJson (e : Entry) : JVal :=
  .jobj [("id", .jstr e.id), ("timestamp", .jstr e.timestamp),
         ("question", .jstr e.question), ("answer", .jstr e.answer),
         ("rating", .jnum e.rating), ("pinned", .jbool e.pinned)]

/-- `save_history_to_disk` (lines 75-82): a no-op unless `persist_opt_in`;
otherwise overwrites the file with `{saved_at: now, items: history}`. -/
def save_history_to_disk (optIn : Bool) (ts : String) (items : List JVal)
    (fs : FileState) : FileState :=
  if optIn then
    .content (.jobj [("saved_at", .jstr ts), ("items", .jarr items)])
  else fs

/-- `load_history_from_disk` (lines 84-94), as a function from the prior
in-memory history and the file state to the resulting history:
* missing file: early `return`, history untouched;
* unreadable/malformed file: the exception is swallowed (`pass`), history
  untouched;
* parsed non-dict document: `data.get` raises `AttributeError`, swallowed,
  history untouched;
* dict without an `items` key: `data.get("items", [])` yields `[]`, which is
  a list, so history is set to `[]`;
* dict whose `items` is not a list: the `isinstance` guard fails, history
  untouched;
* dict whose `items` is a list: history is set to that list. -/
def load_history_from_disk (h0 : List JVal) (fs : FileState) : List JVal :=
  match fs with
  | .missing => h0
  | .corrupt => h0
  | .content doc =>
    match doc with
    | .jobj fields =>
      match (fields.find? fun p => p.1 == "items").map Prod.snd with
      | some (.jarr xs) => xs
      | some _ => h0
      | none => []
    | _ => h0

/-- `export_history_bytes` (lines 96-101): builds the exported JSON document;
no side effect on session state or the history file. -/
def export_history_bytes (ts : String) (items : List JVal) : JVal :=
  .jobj [("exported_at", .jstr ts), ("items", .jarr items)]

/-- Python's `str.strip()` with no argument: remove whitespace from both
ends of the string (used as `prompt.strip()` in the send handler). -/
def pyStrip (s : String) : String :=
  ⟨((s.data.dropWhile Char.isWhitespace).reverse.dropWhile Char.isWhitespace).reverse⟩

/-- Outcome of one call to the inference collaborator
(`model.generate_content`): either the response text or a raised exception
carrying a message. -/
inductive GenResult where
  | success (text : String)
  | failure (msg : String)
deriving Repr, DecidableEq

/-- Per-action external inputs: credential, whether `model` initialisation
succeeded, the collaborator call outcome, and the two clock readings used by
the send handler (`datetime.now().timestamp()` and `now_iso()`). -/
structure Env where
  apiKey : String
  modelConfigured : Bool
  genResult : GenResult
  nowId : String
  nowIso : String
deriving Repr, DecidableEq

/-- `generate_answer` (lines 119-124): raises when `model` is `None`;
otherwise returns `resp.text or "(No text returned)"`. -/
def generate_answer (modelConfigured : Bool) (res : GenResult) : GenResult :=
  if modelConfigured then
    match res with
    | .success t => .success (if t = "" then "(No text returned)" else t)
    | .failure m => .failure m
  else
    .failure "Generative model not configured (missing/invalid GOOGLE_API_KEY)."

/-- The user-visible outcome of a send click. `configError` is the
`st.error("GOOGLE_API_KEY not configured...")` branch (the spec's
`ConfigurationError`); `missingImage` and `emptyQuestion` are the two
`st.error` branches the spec groups as `MissingInputError`; `answered e`
means an entry was recorded. -/
inductive SendOutcome where
  | configError
  | missingImage
  | emptyQuestion
  | answered (e : Entry)
deriving Repr, DecidableEq

/-- Whether an outcome is one of the spec's `MissingInputError` cases. -/
def SendOutcome.isMissingInput : SendOutcome → Bool
  | .missingImage => true
  | .emptyQuestion => true
  | _ => false

/-- Result of a send click: outcome shown to the user, new session state,
new file state. -/
structure SendResult where
  outcome : SendOutcome
  state : SessionState
  file : FileState
deriving Repr

/-- The dict recorded by the send handler (lines 264-277): `generate_answer`
is called inside `try/except`, so any exception becomes the string
`f"Error: {e}"`; the id is `datetime.now().timestamp()`, the question the
stripped prompt, rating 0, pinned false. -/
def sendEntry (env : Env) (prompt : String) : Entry :=
  { id := env.nowId
    timestamp := env.nowIso
    question := pyStrip prompt
    answer :=
      match generate_answer env.modelConfigured env.genResult with
      | .success t => t
      | .failure m => "Error: " ++ m
    rating := 0
    pinned := false }

/-- The send handler (lines 256-283). Preconditions in order: `API_KEY`
non-empty, an image present, stripped prompt non-empty; each failure shows an
error and mutates nothing. Otherwise a fresh entry is appended,
`questions_today` is incremented, and `save_history_to_disk` runs. -/
def send_clicked (env : Env) (prompt : String) (s : SessionState)
    (fs : FileState) : SendResult :=
  if env.apiKey = "" then
    { outcome := .configError, state := s, file := fs }
  else if s.current_image = none then
    { outcome := .missingImage, state := s, file := fs }
  else if pyStrip prompt = "" then
    { outcome := .emptyQuestion, state := s, file := fs }
  else
    let entry : Entry := sendEntry env prompt
    let s' : SessionState :=
      { s with
        history := s.history ++ [entry]
        achievements :=
          { s.achievements with
            questions_today := s.achievements.questions_today + 1 } }
    { outcome := .answered entry
      state := s'
      file := save_history_to_disk s'.persist_opt_in env.nowIso
        (s'.history.map entryToJson) fs }

/-- Replace the last element of a list by its image under `f`
(Python `lst[-1]` in-place assignment); the empty list is left alone. -/
def updateLast (f : Entry → Entry) : List Entry → List Entry
  | [] => []
  | [e] => [f e]
  | e :: e2 :: rest => e :: updateLast f (e2 :: rest)

/-- Toggle `pinned` of the element at index `i`
(the sidebar `entry["pinned"] = not pinned`, line 168). -/
def setPinToggle : List Entry → Nat → List Entry
  | [], _ => []
  | e :: rest, 0 => { e with pinned := !e.pinned } :: rest
  | e :: rest, i + 1 => e :: setPinToggle rest i

/-- The "Save Rating" handler (lines 301-307): guarded by
`if st.session_state.history`, it sets `history[-1]["rating"] = rr` where
`rr` comes from a slider with `min_value=1, max_value=5`, then saves. -/
def save_rating (rr : Int) (ts : String) (s : SessionState) (fs : FileState) :
    SessionState × FileState :=
  if s.history.isEmpty then (s, fs)
  else
    let s' := { s with history := updateLast (fun e => { e with rating := rr }) s.history }
    (s', save_history_to_disk s'.persist_opt_in ts (s'.history.map entryToJson) fs)

/-- The "Pin last" handler (lines 308-311): guarded by non-empty history,
toggles `pinned` of the last entry, then saves. -/
def pin_last (ts : String) (s : SessionState) (fs : FileState) :
    SessionState × FileState :=
  if s.history.isEmpty then (s, fs)
  else
    let s' := { s with history := updateLast (fun e => { e with pinned := !e.pinned }) s.history }
    (s', save_history_to_disk s'.persist_opt_in ts (s'.history.map entryToJson) fs)

/-- A sidebar pin button (lines 156-170): one button per entry of
`history[-6:]`, so a button exists for absolute index `i` only when
`i < length` and `length ≤ i + 6`; it toggles that entry's `pinned` and
saves. Out-of-range `i` corresponds to no button and is a no-op. -/
def pin_sidebar (i : Nat) (ts : String) (s : SessionState) (fs : FileState) :
    SessionState × FileState :=
  if i < s.history.length ∧ s.history.length ≤ i + 6 then
    let s' := { s with history := setPinToggle s.history i }
    (s', save_history_to_disk s'.persist_opt_in ts (s'.history.map entryToJson) fs)
  else (s, fs)

/-- The "Clear Session History" handler (lines 149-152): empties `history`
and saves. -/
def clear_history (ts : String) (s : SessionState) (fs : FileState) :
    SessionState × FileState :=
  let s' := { s with history := [] }
  (s', save_history_to_disk s'.persist_opt_in ts (s'.history.map entryToJson) fs)

/-- The upload handler (lines 194-203): on a successful decode the image
replaces `current_image` and `first_upload_done` is set; on
`UnidentifiedImageError` the image is cleared. The history file is not
touched. `res` is the decoder's outcome (`none` = decode failure). -/
def upload_image (res : Option Nat) (s : SessionState) : SessionState :=
  match res with
  | some img =>
    { s with
      current_image := some img
      achievements := { s.achievements with first_upload_done := true } }
  | none => { s with current_image := none }

/-- One user-initiated action, as dispatched by the script on a rerun. -/
inductive UAction where
  | send (env : Env) (prompt : String)
  | rate (rr : Int) (ts : String)
  | pinLast (ts : String)
  | pinSidebar (i : Nat) (ts : String)
  | clear (ts : String)
  | upload (res : Option Nat)
  | exportH
deriving Repr

/-- Dispatch one action against the session and file state. Export reads the
state and produces a download buffer but mutates nothing. -/
def step (a : UAction) (s : SessionState) (fs : FileState) :
    SessionState × FileState :=
  match a with
  | .send env prompt =>
    let r := send_clicked env prompt s fs
    (r.state, r.file)
  | .rate rr ts => save_rating rr ts s fs
  | .pinLast ts => pin_last ts s fs
  | .pinSidebar i ts => pin_sidebar i ts s fs
  | .clear ts => clear_history ts s fs
  | .upload res => (upload_image res s, fs)
  | .exportH => (s, fs)

/-- Run a sequence of actions from a given session and file state. -/
def run (acts : List UAction) (s : SessionState) (fs : FileState) :
    SessionState × FileState :=
  match acts with
  | [] => (s, fs)
  | a :: rest =>
    let r := step a s fs
    run rest r.1 r.2

/-- The ids of the entries of a history, in order. -/
def idsOf (h : List Entry) : List String := h.map Entry.id

/-- The clock readings `datetime.now().timestamp()` that the send actions of
a trace would stamp as entry ids. -/
def sendIds (acts : List UAction) : List String :=
  acts.filterMap fun a =>
    match a with
    | .send env _ => some env.nowId
    | _ => none

/-! Concrete data used by witnesses and counterexamples. -/

/-- A configured environment whose collaborator answers successfully. -/
def envOk : Env :=
  { apiKey := "k", modelConfigured := true,
    genResult := .success "A calm beach scene.", nowId := "1700.5", nowIso := "t1" }

/-- Same environment but the collaborator raises `ConnectionError("timeout")`. -/
def envFail : Env := { envOk with genResult := .failure "timeout" }

/-- Same environment but with an empty `GOOGLE_API_KEY`. -/
def envNoKey : Env := { envOk with apiKey := "" }

/-- A second configured environment with a later clock reading. -/
def envOk2 : Env := { envOk with nowId := "1700.9", nowIso := "t2" }

/-- A session with an image present and an empty history. -/
def sImg : SessionState :=
  { history := [], current_image := some 0, persist_opt_in := false,
    achievements := { questions_today := 3, first_upload_done := true } }

/-- A sample unrated entry. -/
def e0 : Entry :=
  { id := "1700.1", timestamp := "t0", question := "What is this?",
    answer := "A cat.", rating := 0, pinned := false }

/-- A sample rated, pinned entry. -/
def e1 : Entry :=
  { id := "1700.2", timestamp := "t0b", question := "More detail?",
    answer := "A tabby cat.", rating := 2, pinned := true }

/-- A session with an image and a one-entry history. -/
def sOne : SessionState := { sImg with history := [e0] }

/-- A session with an image and a two-entry history. -/
def sTwo : SessionState := { sImg with history := [e0, e1] }

/-- Entry constructor with positional fields, for compact statements. -/
def mkEntry (i ts q a : String) (r : Int) (p : Bool) : Entry :=
  { id := i, timestamp := ts, question := q, answer := a, rating := r, pinned := p }

/-- A trace whose two sends observe the same clock reading. -/
def actsDup : List UAction :=
  [UAction.upload (some 7), UAction.send envOk "q", UAction.send envOk "q"]

/-- A trace whose two sends observe distinct clock readings. -/
def actsOk : List UAction :=
  [UAction.upload (some 7), UAction.send envOk "q", UAction.send envOk2 "q"]

/-! Helper lemmas about the list operations of the handlers. -/

theorem updateLast_length (f : Entry → Entry) (l : List Entry) :
    (updateLast f l).length = l.length := by
  induction l with
  | nil => rfl
  | cons e rest ih =>
    cases rest with
    | nil => rfl
    | cons e2 rest2 => simpa [updateLast] using ih

theorem updateLast_getElem?_lt (f : Entry → Entry) (l : List Entry) (i : Nat)
    (h : i + 1 < l.length) : (updateLast f l)[i]? = l[i]? := by
  induction l generalizing i with
  | nil => rfl
  | cons e rest ih =>
    cases rest with
    | nil => simp at h
    | cons e2 rest2 =>
      cases i with
      | zero => simp [updateLast]
      | succ j =>
        simp only [updateLast, List.getElem?_cons_succ]
        exact ih j (by simpa using Nat.lt_of_succ_lt_succ h)

theorem updateLast_concat (f : Entry → Entry) (l0 : List Entry) (x : Entry) :
    updateLast f (l0 ++ [x]) = l0 ++ [f x] := by
  induction l0 with
  | nil => rfl
  | cons e rest ih =>
    cases rest with
    | nil => rfl
    | cons e2 rest2 =>
      simp only [List.cons_append, List.append_eq, updateLast] at ih ⊢
      rw [ih]

theorem updateLast_getLast? (f : Entry → Entry) (l : List Entry) :
    (updateLast f l).getLast? = (l.getLast?).map f := by
  rcases List.eq_nil_or_concat l with h | ⟨l0, x, h⟩
  · subst h; rfl
  · subst h
    simp [List.concat_eq_append, updateLast_concat, List.getLast?_concat]

theorem updateLast_map {α : Type} (g : Entry → α) (f : Entry → Entry)
    (hf : ∀ e, g (f e) = g e) (l : List Entry) :
    (updateLast f l).map g = l.map g := by
  induction l with
  | nil => rfl
  | cons e rest ih =>
    cases rest with
    | nil => simp [updateLast, hf]
    | cons e2 rest2 => simpa [updateLast] using ih

theorem setPinToggle_map_id (l : List Entry) (i : Nat) :
    (setPinToggle l i).map Entry.id = l.map Entry.id := by
  induction l generalizing i with
  | nil => rfl
  | cons e rest ih =>
    cases i with
    | zero => rfl
    | succ j => simpa [setPinToggle] using ih j

theorem setPinToggle_map_rating (l : List Entry) (i : Nat) :
    (setPinToggle l i).map Entry.rating = l.map Entry.rating := by
  induction l generalizing i with
  | nil => rfl
  | cons e rest ih =>
    cases i with
    | zero => rfl
    | succ j => simpa [setPinToggle] using ih j

/-- Reduction of the send handler when every precondition passes. -/
theorem send_clicked_success (env : Env) (prompt : String) (s : SessionState)
    (fs : FileState) (hkey : ¬ env.apiKey = "")
    (himg : ¬ s.current_image = none) (hq : ¬ pyStrip prompt = "") :
    send_clicked env prompt s fs =
      { outcome := .answered (sendEntry env prompt)
        state :=
          { s with
            history := s.history ++ [sendEntry env prompt]
            achievements :=
              { s.achievements with
                questions_today := s.achievements.questions_today + 1 } }
        file := save_history_to_disk s.persist_opt_in env.nowIso
          ((s.history ++ [sendEntry env prompt]).map entryToJson) fs } := by
  simp [send_clicked, hkey, himg, hq]

/-! The claims. -/

/-- Claim C1: the send preconditions are checked in order; when the first
failing one is the missing inference-collaborator configuration (empty
`GOOGLE_API_KEY`), the send surfaces the configuration error and performs no
state mutation: no entry is appended, `questions_today` is unchanged (the
whole session state and the history file are unchanged). -/
theorem claim_C1 (env : Env) (prompt : String) (s : SessionState)
    (fs : FileState) (hkey : env.apiKey = "") :
    (send_clicked env prompt s fs).outcome = SendOutcome.configError ∧
    (send_clicked env prompt s fs).state = s ∧
    (send_clicked env prompt s fs).file = fs := by
  refine ⟨?_, ?_, ?_⟩ <;> simp [send_clicked, hkey]

/-- Witness for C1 at a concrete unconfigured environment. -/
theorem claim_C1_witness :
    (send_clicked envNoKey "Summarize" sImg FileState.missing).outcome =
      SendOutcome.configError ∧
    (send_clicked envNoKey "Summarize" sImg FileState.missing).state = sImg ∧
    (send_clicked envNoKey "Summarize" sImg FileState.missing).file =
      FileState.missing :=
  claim_C1 envNoKey "Summarize" sImg FileState.missing rfl

/-- Claim C2: when all preconditions pass and the collaborator returns a
(non-empty) text answer, exactly one new entry is appended — question the
stripped prompt, answer the returned text, rating 0, pinned false, id and
timestamp the fresh clock readings of this send — and `questions_today`
increments by exactly 1. -/
theorem claim_C2 (env : Env) (prompt : String) (s : SessionState)
    (fs : FileState) (t : String) (hkey : env.apiKey ≠ "")
    (himg : s.current_image ≠ none) (hq : pyStrip prompt ≠ "")
    (hm : env.modelConfigured = true) (hgen : env.genResult = .success t)
    (ht : t ≠ "") :
    (send_clicked env prompt s fs).state.history =
      s.history ++ [mkEntry env.nowId env.nowIso (pyStrip prompt) t 0 false] ∧
    (send_clicked env prompt s fs).state.achievements.questions_today =
      s.achievements.questions_today + 1 := by
  rw [send_clicked_success env prompt s fs hkey himg hq]
  refine ⟨?_, rfl⟩
  simp [sendEntry, generate_answer, hm, hgen, ht, mkEntry]

/-- Witness for C2: the spec's own example send. -/
theorem claim_C2_witness :
    (send_clicked envOk "Summarize" sImg FileState.missing).state.history =
      sImg.history ++
        [mkEntry "1700.5" "t1" "Summarize" "A calm beach scene." 0 false] ∧
    (send_clicked envOk "Summarize" sImg FileState.missing).state.achievements.questions_today =
      sImg.achievements.questions_today + 1 :=
  claim_C2 envOk "Summarize" sImg FileState.missing "A calm beach scene."
    (by decide) (by decide) (by decide) rfl rfl (by decide)

/-- Claim C3: when all preconditions pass and the collaborator raises, the
exception does not escape the send (the outcome is still a recorded entry):
exactly one entry is appended whose answer is the formatted error string
embedding the exception message, and `questions_today` still increments
by 1. -/
theorem claim_C3 (env : Env) (prompt : String) (s : SessionState)
    (fs : FileState) (m : String) (hkey : env.apiKey ≠ "")
    (himg : s.current_image ≠ none) (hq : pyStrip prompt ≠ "")
    (hm : env.modelConfigured = true) (hgen : env.genResult = .failure m) :
    (send_clicked env prompt s fs).outcome =
      SendOutcome.answered
        (mkEntry env.nowId env.nowIso (pyStrip prompt) ("Error: " ++ m) 0 false) ∧
    (send_clicked env prompt s fs).state.history =
      s.history ++
        [mkEntry env.nowId env.nowIso (pyStrip prompt) ("Error: " ++ m) 0 false] ∧
    (∃ pre post, "Error: " ++ m = pre ++ m ++ post) ∧
    (send_clicked env prompt s fs).state.achievements.questions_today =
      s.achievements.questions_today + 1 := by
  rw [send_clicked_success env prompt s fs hkey himg hq]
  refine ⟨?_, ?_, ⟨"Error: ", "", by simp⟩, rfl⟩
  · simp [sendEntry, generate_answer, hm, hgen, mkEntry]
  · simp [sendEntry, generate_answer, hm, hgen, mkEntry]

/-- Witness for C3: the collaborator raises `ConnectionError("timeout")`. -/
theorem claim_C3_witness :
    (send_clicked envFail "Summarize" sImg FileState.missing).outcome =
      SendOutcome.answered
        (mkEntry "1700.5" "t1" "Summarize" "Error: timeout" 0 false) ∧
    (send_clicked envFail "Summarize" sImg FileState.missing).state.history =
      sImg.history ++ [mkEntry "1700.5" "t1" "Summarize" "Error: timeout" 0 false] ∧
    (∃ pre post, "Error: " ++ "timeout" = pre ++ "timeout" ++ post) ∧
    (send_clicked envFail "Summarize" sImg FileState.missing).state.achievements.questions_today =
      sImg.achievements.questions_today + 1 :=
  claim_C3 envFail "Summarize" sImg FileState.missing "timeout"
    (by decide) (by decide) (by decide) rfl rfl

/-- Counterexample to C4 as stated: with no image set AND an unconfigured
collaborator, the send fails with the configuration error, not a
`MissingInputError` — the claim's universal quantification over "every send
action in which no image is set" omits the earlier precondition. -/
theorem claim_C4_counterexample :
    initState.current_image = none ∧
    (send_clicked envNoKey "Summarize" initState FileState.missing).outcome.isMissingInput
      = false :=
  ⟨rfl, rfl⟩

/-- Claim C4 (amended: provided the inference collaborator is configured):
every send with no image set, or with an image but a whitespace-only
question, fails with a `MissingInputError`, appends zero entries, and leaves
the whole session state (history, current_image, achievements) and the file
unchanged. -/
theorem claim_C4 (env : Env) (prompt : String) (s : SessionState)
    (fs : FileState) (hkey : env.apiKey ≠ "")
    (h : s.current_image = none ∨ pyStrip prompt = "") :
    (send_clicked env prompt s fs).outcome.isMissingInput = true ∧
    (send_clicked env prompt s fs).state = s ∧
    (send_clicked env prompt s fs).file = fs := by
  by_cases himg : s.current_image = none
  · refine ⟨?_, ?_, ?_⟩ <;>
      simp [send_clicked, hkey, himg, SendOutcome.isMissingInput]
  · rcases h with h | h
    · exact absurd h himg
    · refine ⟨?_, ?_, ?_⟩ <;>
        simp [send_clicked, hkey, himg, h, SendOutcome.isMissingInput]

/-- Witness for C4: configured key, image present, whitespace-only question. -/
theorem claim_C4_witness :
    (send_clicked envOk "  " sImg FileState.missing).outcome.isMissingInput = true ∧
    (send_clicked envOk "  " sImg FileState.missing).state = sImg ∧
    (send_clicked envOk "  " sImg FileState.missing).file = FileState.missing :=
  claim_C4 envOk "  " sImg FileState.missing (by decide) (Or.inr rfl)

/-- Claim C5: save (with opt-in) followed by load returns exactly the saved
history, for every history — including empty and entries with arbitrary
unicode text — every prior in-memory history, every timestamp and every
prior file state. -/
theorem claim_C5 (h : List Entry) (h0 : List JVal) (ts : String)
    (fs : FileState) :
    load_history_from_disk h0
        (save_history_to_disk true ts (h.map entryToJson) fs) =
      h.map entryToJson := rfl

/-- Counterexample to C6 as stated: when the file is missing, load does not
return an empty sequence — it leaves the in-memory history untouched (here a
non-empty one survives). -/
theorem claim_C6_counterexample :
    load_history_from_disk [JVal.jstr "q1"] FileState.missing = [JVal.jstr "q1"] ∧
    ([JVal.jstr "q1"] : List JVal) ≠ [] :=
  ⟨rfl, by simp⟩

/-- Claim C6 (amended): for every load where the file is missing, is
malformed/unreadable, or parses to a dict whose `items` field is not a
sequence, load raises no error and leaves the in-memory history unchanged —
in particular, at session start, where the in-memory history is empty when
the load runs, the session history stays the empty sequence. -/
theorem claim_C6 (h0 : List JVal) (fs : FileState)
    (h : fs = FileState.missing ∨ fs = FileState.corrupt ∨
      ∃ fields v, fs = FileState.content (JVal.jobj fields) ∧
        ((fields.find? fun p => p.1 == "items").map Prod.snd = some v) ∧
        ∀ xs, v ≠ JVal.jarr xs) :
    load_history_from_disk h0 fs = h0 := by
  rcases h with h | h | ⟨fields, v, hfs, hfind, hv⟩
  · subst h; rfl
  · subst h; rfl
  · subst hfs
    cases v with
    | jnull => simp [load_history_from_disk, hfind]
    | jbool b => simp [load_history_from_disk, hfind]
    | jnum n => simp [load_history_from_disk, hfind]
    | jstr str => simp [load_history_from_disk, hfind]
    | jarr xs => exact absurd rfl (hv xs)
    | jobj flds => simp [load_history_from_disk, hfind]

/-- Witness for C6 at a concrete corrupted file and non-empty history. -/
theorem claim_C6_witness :
    load_history_from_disk [JVal.jstr "a"] FileState.corrupt = [JVal.jstr "a"] :=
  claim_C6 [JVal.jstr "a"] FileState.corrupt (Or.inr (Or.inl rfl))

/-- Counterexample to C7 as stated: the Save Rating handler performs no
range validation — applied to the out-of-range value 6 it changes the
entry's rating from 0 to 6 and signals no error, instead of failing with a
`ValidationError` and leaving the rating unchanged. -/
theorem claim_C7_counterexample :
    sOne.history.map Entry.rating = [0] ∧
    (save_rating 6 "t2" sOne FileState.missing).1.history.map Entry.rating = [6] :=
  ⟨rfl, rfl⟩

/-- Claim C7 (amended): the handler stores the submitted value into the last
entry's rating unconditionally; out-of-range values are excluded by the
slider control (`min_value=1, max_value=5`), not rejected by a
`ValidationError` — no such check exists in the code. So for every value in
[1,5] (all that the slider can submit), the rating of the last entry is
mutated in place to that value: its other fields and all other entries are
unchanged. -/
theorem claim_C7 (rr : Int) (ts : String) (s : SessionState) (fs : FileState)
    (h1 : 1 ≤ rr) (h5 : rr ≤ 5) (hne : s.history ≠ []) :
    ((save_rating rr ts s fs).1.history.getLast?).map Entry.rating = some rr ∧
    ((save_rating rr ts s fs).1.history.getLast?).map
        (fun e => (e.id, e.timestamp, e.question, e.answer, e.pinned)) =
      (s.history.getLast?).map
        (fun e => (e.id, e.timestamp, e.question, e.answer, e.pinned)) ∧
    (save_rating rr ts s fs).1.history.length = s.history.length ∧
    (∀ i, i + 1 < s.history.length →
      (save_rating rr ts s fs).1.history[i]? = s.history[i]?) := by
  have hemp : s.history.isEmpty = false := by
    cases hh : s.history with
    | nil => exact absurd hh hne
    | cons a l => rfl
  refine ⟨?_, ?_, ?_, ?_⟩
  · simp [save_rating, hemp, updateLast_getLast?]
    rcases List.eq_nil_or_concat s.history with h | ⟨l0, x, hl⟩
    · exact absurd h hne
    · simp [hl, List.concat_eq_append, List.getLast?_concat]
  · simp [save_rating, hemp, updateLast_getLast?]
    rcases List.eq_nil_or_concat s.history with h | ⟨l0, x, hl⟩
    · exact absurd h hne
    · simp [hl, List.concat_eq_append, List.getLast?_concat]
  · simp [save_rating, hemp, updateLast_length]
  · intro i hi
    simp [save_rating, hemp, updateLast_getElem?_lt _ _ _ hi]

/-- Witness for C7 at the in-range value 4 on a two-entry history. -/
theorem claim_C7_witness :
    ((save_rating 4 "t3" sTwo FileState.missing).1.history.getLast?).map Entry.rating
      = some 4 ∧
    ((save_rating 4 "t3" sTwo FileState.missing).1.history.getLast?).map
        (fun e => (e.id, e.timestamp, e.question, e.answer, e.pinned)) =
      (sTwo.history.getLast?).map
        (fun e => (e.id, e.timestamp, e.question, e.answer, e.pinned)) ∧
    (save_rating 4 "t3" sTwo FileState.missing).1.history.length =
      sTwo.history.length ∧
    (∀ i, i + 1 < sTwo.history.length →
      (save_rating 4 "t3" sTwo FileState.missing).1.history[i]? =
        sTwo.history[i]?) :=
  claim_C7 4 "t3" sTwo FileState.missing (by decide) (by decide) (by decide)

/-- Claim C8: clearing the history empties it and leaves both achievement
counters and the current image exactly as they were. -/
theorem claim_C8 (ts : String) (s : SessionState) (fs : FileState) :
    (clear_history ts s fs).1.history = [] ∧
    (clear_history ts s fs).1.achievements = s.achievements ∧
    (clear_history ts s fs).1.current_image = s.current_image :=
  ⟨rfl, rfl, rfl⟩

/-! Trace-level lemmas: how each action transforms the list of entry ids. -/

theorem send_clicked_state_cases (env : Env) (prompt : String)
    (s : SessionState) (fs : FileState) :
    (send_clicked env prompt s fs).state.history = s.history ∨
    (send_clicked env prompt s fs).state.history =
      s.history ++ [sendEntry env prompt] := by
  by_cases hkey : env.apiKey = ""
  · left; simp [send_clicked, hkey]
  · by_cases himg : s.current_image = none
    · left; simp [send_clicked, hkey, himg]
    · by_cases hq : pyStrip prompt = ""
      · left; simp [send_clicked, hkey, himg, hq]
      · right; simp [send_clicked, hkey, himg, hq]

theorem idsOf_save_rating (rr : Int) (ts : String) (s : SessionState)
    (fs : FileState) :
    idsOf (save_rating rr ts s fs).1.history = idsOf s.history := by
  by_cases hemp : s.history.isEmpty
  · simp [save_rating, hemp]
  · simp only [save_rating, hemp, Bool.false_eq_true, if_false]
    exact updateLast_map Entry.id (fun e => { e with rating := rr })
      (fun e => rfl) s.history

theorem idsOf_pin_last (ts : String) (s : SessionState) (fs : FileState) :
    idsOf (pin_last ts s fs).1.history = idsOf s.history := by
  by_cases hemp : s.history.isEmpty
  · simp [pin_last, hemp]
  · simp only [pin_last, hemp, Bool.false_eq_true, if_false]
    exact updateLast_map Entry.id (fun e => { e with pinned := !e.pinned })
      (fun e => rfl) s.history

theorem idsOf_pin_sidebar (i : Nat) (ts : String) (s : SessionState)
    (fs : FileState) :
    idsOf (pin_sidebar i ts s fs).1.history = idsOf s.history := by
  by_cases hg : i < s.history.length ∧ s.history.length ≤ i + 6
  · simp only [pin_sidebar, hg, if_true]
    exact setPinToggle_map_id s.history i
  · simp [pin_sidebar, hg]

/-- Invariant carried through a trace: if the ids already in the history
together with the clock stamps of the pending send actions are pairwise
distinct, the history's ids stay pairwise distinct. -/
theorem run_ids_nodup (acts : List UAction) (s : SessionState)
    (fs : FileState)
    (h : (idsOf s.history ++ sendIds acts).Nodup) :
    (idsOf (run acts s fs).1.history).Nodup := by
  induction acts generalizing s fs with
  | nil => simpa [run, sendIds] using h
  | cons a rest ih =>
    cases a with
    | send env prompt =>
      have hsend : sendIds (UAction.send env prompt :: rest) =
          env.nowId :: sendIds rest := by
        simp [sendIds]
      rw [hsend] at h
      show (idsOf (run rest (step (UAction.send env prompt) s fs).1
        (step (UAction.send env prompt) s fs).2).1.history).Nodup
      apply ih
      rcases send_clicked_state_cases env prompt s fs with hc | hc
      · have hids : idsOf (step (UAction.send env prompt) s fs).1.history =
            idsOf s.history := by
          simp only [step]; rw [hc]
        rw [hids]
        exact h.sublist ((List.sublist_cons_self _ _).append_left _)
      · have hids : idsOf (step (UAction.send env prompt) s fs).1.history =
            idsOf s.history ++ [env.nowId] := by
          simp only [step]; rw [hc]; simp [idsOf, sendEntry]
        rw [hids]
        simpa [List.append_assoc] using h
    | rate rr ts =>
      have hs : sendIds (UAction.rate rr ts :: rest) = sendIds rest := by
        simp [sendIds]
      rw [hs] at h
      show (idsOf (run rest (step (UAction.rate rr ts) s fs).1
        (step (UAction.rate rr ts) s fs).2).1.history).Nodup
      apply ih
      have hids : idsOf (step (UAction.rate rr ts) s fs).1.history =
          idsOf s.history := idsOf_save_rating rr ts s fs
      rw [hids]; exact h
    | pinLast ts =>
      have hs : sendIds (UAction.pinLast ts :: rest) = sendIds rest := by
        simp [sendIds]
      rw [hs] at h
      show (idsOf (run rest (step (UAction.pinLast ts) s fs).1
        (step (UAction.pinLast ts) s fs).2).1.history).Nodup
      apply ih
      have hids : idsOf (step (UAction.pinLast ts) s fs).1.history =
          idsOf s.history := idsOf_pin_last ts s fs
      rw [hids]; exact h
    | pinSidebar i ts =>
      have hs : sendIds (UAction.pinSidebar i ts :: rest) = sendIds rest := by
        simp [sendIds]
      rw [hs] at h
      show (idsOf (run rest (step (UAction.pinSidebar i ts) s fs).1
        (step (UAction.pinSidebar i ts) s fs).2).1.history).Nodup
      apply ih
      have hids : idsOf (step (UAction.pinSidebar i ts) s fs).1.history =
          idsOf s.history := idsOf_pin_sidebar i ts s fs
      rw [hids]; exact h
    | clear ts =>
      have hs : sendIds (UAction.clear ts :: rest) = sendIds rest := by
        simp [sendIds]
      rw [hs] at h
      show (idsOf (run rest (step (UAction.clear ts) s fs).1
        (step (UAction.clear ts) s fs).2).1.history).Nodup
      apply ih
      have hids : idsOf (step (UAction.clear ts) s fs).1.history = [] := by
        simp [step, clear_history, idsOf]
      rw [hids]
      exact h.sublist (List.sublist_append_right _ _)
    | upload res =>
      have hs : sendIds (UAction.upload res :: rest) = sendIds rest := by
        simp [sendIds]
      rw [hs] at h
      show (idsOf (run rest (step (UAction.upload res) s fs).1
        (step (UAction.upload res) s fs).2).1.history).Nodup
      apply ih
      have hids : idsOf (step (UAction.upload res) s fs).1.history =
          idsOf s.history := by
        cases res <;> simp [step, upload_image]
      rw [hids]; exact h
    | exportH =>
      have hs : sendIds (UAction.exportH :: rest) = sendIds rest := by
        simp [sendIds]
      rw [hs] at h
      show (idsOf (run rest (step UAction.exportH s fs).1
        (step UAction.exportH s fs).2).1.history).Nodup
      apply ih
      exact h

/-- Counterexample to C9 as stated: entry ids are
`datetime.now().timestamp()` strings, so two sends that observe the same
clock reading produce two entries with identical ids — reachable, with
pairwise-distinct ids violated. -/
theorem claim_C9_counterexample :
    (run actsDup initState FileState.missing).1.history.length = 2 ∧
    idsOf (run actsDup initState FileState.missing).1.history =
      ["1700.5", "1700.5"] ∧
    ¬ (idsOf (run actsDup initState FileState.missing).1.history).Nodup := by
  refine ⟨rfl, rfl, ?_⟩
  decide

/-- Claim C9 (amended): in every session state reachable from the initial
state by send/rate/pin/clear/upload/export actions, the entry ids are
pairwise distinct, provided the clock readings observed by the send actions
of the trace are pairwise distinct (ids are timestamp-derived, so uniqueness
holds exactly when successive `datetime.now().timestamp()` values do not
repeat). -/
theorem claim_C9 (acts : List UAction) (fs : FileState)
    (h : (sendIds acts).Nodup) :
    (idsOf (run acts initState fs).1.history).Nodup := by
  apply run_ids_nodup
  simpa [initState, idsOf] using h

/-- Witness for C9 on a concrete trace with distinct clock readings. -/
theorem claim_C9_witness :
    (idsOf (run actsOk initState FileState.missing).1.history).Nodup :=
  claim_C9 actsOk FileState.missing (by decide)

/-- Claim C10: the rating action only ever targets the most recently
appended entry, so across every operation (send, rate, pin last, sidebar
pin, clear, upload, export) the rating of every history entry other than
the last one is unchanged from the previous state. -/
theorem claim_C10 (a : UAction) (s : SessionState) (fs : FileState) (i : Nat)
    (hi : i + 1 < (step a s fs).1.history.length) :
    ((step a s fs).1.history[i]?).map Entry.rating =
      (s.history[i]?).map Entry.rating := by
  cases a with
  | send env prompt =>
    rcases send_clicked_state_cases env prompt s fs with hc | hc
    · simp only [step]; rw [hc]
    · simp only [step] at hi ⊢
      rw [hc] at hi ⊢
      have hlen : i < s.history.length := by
        have := Nat.lt_of_succ_lt_succ (by simpa using hi)
        simpa using this
      rw [List.getElem?_append_left hlen]
  | rate rr ts =>
    by_cases hemp : s.history.isEmpty
    · simp [step, save_rating, hemp]
    · simp only [step, save_rating, hemp, Bool.false_eq_true, if_false] at hi ⊢
      have hlen : i + 1 < s.history.length := by
        simpa [updateLast_length] using hi
      rw [updateLast_getElem?_lt _ _ _ hlen]
  | pinLast ts =>
    by_cases hemp : s.history.isEmpty
    · simp [step, pin_last, hemp]
    · simp only [step, pin_last, hemp, Bool.false_eq_true, if_false] at hi ⊢
      have hlen : i + 1 < s.history.length := by
        simpa [updateLast_length] using hi
      rw [updateLast_getElem?_lt _ _ _ hlen]
  | pinSidebar j ts =>
    by_cases hg : j < s.history.length ∧ s.history.length ≤ j + 6
    · have hred : pin_sidebar j ts s fs =
          ({ s with history := setPinToggle s.history j },
            save_history_to_disk s.persist_opt_in ts
              ((setPinToggle s.history j).map entryToJson) fs) := by
        simp [pin_sidebar, hg]
      simp only [step, hred]
      rw [← List.getElem?_map, setPinToggle_map_rating, List.getElem?_map]
    · simp [step, pin_sidebar, hg]
  | clear ts =>
    exact absurd hi (by simp [step, clear_history])
  | upload res =>
    cases res <;> simp [step, upload_image]
  | exportH => rfl

/-- Witness for C10: a rate action on a two-entry history leaves the first
entry's rating unchanged. -/
theorem claim_C10_witness :
    (0 + 1 < (step (UAction.rate 5 "t4") sTwo FileState.missing).1.history.length) ∧
    ((step (UAction.rate 5 "t4") sTwo FileState.missing).1.history[0]?).map Entry.rating =
      (sTwo.history[0]?).map Entry.rating :=
  ⟨by decide, claim_C10 (UAction.rate 5 "t4") sTwo FileState.missing 0 (by decide)⟩
